import Mathlib

/-!
# Verification of the IMDB episode-rating scraper core

A shallow embedding of `src/imdb_scraper.py` (extraction pipeline and
analytics), together with theorems settling the specification claims.

Modelling conventions:
* Python floats are modelled as exact rationals (`ℚ`); Python machine
  integers are unbounded, matching `Int`/`Nat`.
* A parsed HTML document is modelled at the boundary of the
  document-parse collaborator: each element-selecting query becomes a
  field holding the element's extracted text, where `none` stands for
  "no element selected, or the selected element is falsy".
* `re.search` over the patterns used by the source (`tt\d+`,
  `season=(\d+)`, `E(\d+)`, `(\d+\.?\d*)`, and the title-prefix pattern)
  is embedded as an explicit leftmost scan with greedy components; the
  character classes `\d` and `\s` are modelled by `Char.isDigit` and
  `Char.isWhitespace` (the ASCII/common cases).
* Functions that raise in Python return `Except`; functions that never
  raise are plain total functions.
-/

/-! ## Regex scanning primitives

`reScan p cs` models `re.search`: it tries the matcher `p` (one attempt
of the pattern anchored at the current position) at every start
position, left to right, returning the first success. -/

/-- Leftmost search: try the anchored matcher at each successive start
position, returning the first success (patterns below never match the
empty suffix, so the final empty position is irrelevant). -/
def reScan {α : Type} (p : List Char → Option α) : List Char → Option α
  | [] => none
  | c :: rest =>
    match p (c :: rest) with
    | some m => some m
    | none => reScan p rest

/-- Value of a digit string, as computed by Python `int` on a `\d+` match. -/
def digitsToNat (ds : List Char) : Nat :=
  ds.foldl (fun n c => 10 * n + (c.toNat - Char.toNat '0')) 0

/-- Anchored matcher for `tt\d+`: two literal `t`s then a greedy
non-empty digit run; returns the full matched text. -/
def ttMatch : List Char → Option (List Char)
  | 't' :: 't' :: d :: rest =>
    if d.isDigit then some ('t' :: 't' :: d :: rest.takeWhile Char.isDigit)
    else none
  | _ => none

/-- Anchored matcher for `season=(\d+)`: the literal `season=` then a
greedy non-empty digit run; returns capture group 1 (the digits). -/
def seasonMatch : List Char → Option (List Char)
  | 's' :: 'e' :: 'a' :: 's' :: 'o' :: 'n' :: '=' :: d :: rest =>
    if d.isDigit then some (d :: rest.takeWhile Char.isDigit)
    else none
  | _ => none

/-- Anchored matcher for `E(\d+)`: literal `E` then a greedy non-empty
digit run; returns capture group 1. -/
def eNumMatch : List Char → Option (List Char)
  | 'E' :: d :: rest =>
    if d.isDigit then some (d :: rest.takeWhile Char.isDigit)
    else none
  | _ => none

/-- Anchored matcher for `(\d+\.?\d*)`: greedy digits, an optional dot,
greedy digits; returns the integer and fractional digit runs. -/
def decimalMatch : List Char → Option (List Char × List Char)
  | d :: rest =>
    if d.isDigit then
      let intPart := d :: rest.takeWhile Char.isDigit
      match rest.dropWhile Char.isDigit with
      | '.' :: r2 => some (intPart, r2.takeWhile Char.isDigit)
      | _ => some (intPart, [])
    else none
  | [] => none

/-- Exact rational value of a matched decimal literal, as Python
`float` computes it (modelled without binary-float rounding). -/
def parseDecimal (intPart fracPart : List Char) : ℚ :=
  (digitsToNat intPart : ℚ) + (digitsToNat fracPart : ℚ) / (10 ^ fracPart.length : ℚ)

/-- The `[ES]` character class of the title-prefix pattern. -/
def isES (c : Char) : Bool := c = 'E' || c = 'S'

/-- The `[∙·]` character class of the title-prefix pattern. -/
def isSepDot (c : Char) : Bool := c = '∙' || c = '·'

/-- Backtracking tail of `\s*(.+)` when the whole remaining input is
whitespace: `\s*` gives back characters one at a time (largest
whitespace prefix first), and `.` does not match a newline, so the
group becomes the last non-newline character, if any. -/
def wsBacktrack : List Char → Option (List Char)
  | [] => none
  | c :: rest =>
    match wsBacktrack rest with
    | some g => some g
    | none => if c ≠ '\n' then some [c] else none

/-- Matcher for the trailing `\s*(.+)` of the title-prefix pattern:
greedily consume whitespace; the group is the maximal non-newline run
that follows (backtracking into the whitespace when nothing follows). -/
def groupTail (cs : List Char) : Option (List Char) :=
  let ws := cs.takeWhile Char.isWhitespace
  match cs.drop ws.length with
  | r :: rest => some ((r :: rest).takeWhile (fun c => c ≠ '\n'))
  | [] => wsBacktrack ws

/-- Anchored matcher for the season/episode title-prefix pattern
`[ES]\d+\.?[ES]?\d*\s*[∙·]\s*(.+)`; returns capture group 1.
The optional components are greedy; none of them can profitably
backtrack (each is followed by components that cannot consume the
character it would give back), except for the final `\s*` handled by
`groupTail`. -/
def epTitleMatch : List Char → Option (List Char)
  | [] => none
  | c :: rest =>
    if isES c then
      let d1 := rest.takeWhile Char.isDigit
      if d1.isEmpty then none
      else
        let r1 := rest.drop d1.length
        let r2 := match r1 with
          | '.' :: t => t
          | other => other
        let r3 := match r2 with
          | c2 :: t => if isES c2 then t else c2 :: t
          | [] => []
        let r4 := r3.dropWhile Char.isDigit
        match r4.dropWhile Char.isWhitespace with
        | b :: r6 => if isSepDot b then groupTail r6 else none
        | [] => none
    else none

/-! ## Identifier Resolver (`get_imdb_id`) -/

/-- Model of `get_imdb_id`: `re.search(r"tt\d+", url)`; the `ValueError` raise is
modelled as `Except.error` with the source's message. -/
def get_imdb_id (url : String) : Except String String :=
  match reScan ttMatch url.data with
  | some m => Except.ok (String.mk m)
  | none => Except.error ("Could not extract IMDB ID from URL: " ++ url)

/-! ## Rating Colorizer (`get_rating_color`) -/

/-- Model of `get_rating_color`, translated clause for clause from the source's
`if/elif` chain. -/
def get_rating_color (rating : Option ℚ) : String :=
  match rating with
  | none => "#3d3d3d"
  | some r =>
    if r < 4 then "#da3633"
    else if r < 5 then "#f85149"
    else if r < 6 then "#d29922"
    else if r < 7 then "#e3b341"
    else if r < 8 then "#7ee787"
    else if r < 9 then "#3fb950"
    else "#238636"

/-- Modelled from the spec: the Rating Colorizer as a lookup table over
the half-open buckets `<4, [4,5), [5,6), [6,7), [7,8), [8,9), ≥9`, with
a fixed neutral color for an absent rating. Used to state refinement of
the specification's bucket table by `get_rating_color`. -/
def colorBucketTable (rating : Option ℚ) : String :=
  match rating with
  | none => "#3d3d3d"
  | some r =>
    if r < 4 then "#da3633"
    else if 4 ≤ r ∧ r < 5 then "#f85149"
    else if 5 ≤ r ∧ r < 6 then "#d29922"
    else if 6 ≤ r ∧ r < 7 then "#e3b341"
    else if 7 ≤ r ∧ r < 8 then "#7ee787"
    else if 8 ≤ r ∧ r < 9 then "#3fb950"
    else "#238636"

/-! ## Show-Metadata Recoverer (`get_show_info`)

The fetch and `BeautifulSoup` parse are external; the model receives the
already-selected element texts. The JSON-LD payload is modelled as a
dict per the source's `extract_json_ld` annotation (`dict | None`;
`none` also covers a present-but-falsy payload). -/

/-- Fields of the show page's JSON-LD payload read by `get_show_info`. -/
structure ShowJsonLd where
  name : Option String
  numberOfSeasons : Option Int
deriving DecidableEq

/-- A poster `img` element; `src` is `none` when the attribute is absent
(`poster_elem.get("src")` then yields Python `None`). -/
structure PosterElem where
  src : Option String
deriving DecidableEq

/-- The show's main page, at the document-parse boundary.
`heroTitle` is the text of `h1[data-testid="hero__pageTitle"] span`,
`firstH1` the text of the first `h1`; `none` = absent-or-falsy element. -/
structure ShowDoc where
  jsonLd : Option ShowJsonLd
  heroTitle : Option String
  firstH1 : Option String
  posterSrcset : Option PosterElem
  posterHero : Option PosterElem
deriving DecidableEq

/-- Result dict of `get_show_info`. -/
structure ShowInfo where
  name : String
  poster_url : Option String
  number_of_seasons : Option Int
deriving DecidableEq

/-- Model of `get_show_info`, after the external fetch/parse: JSON-LD name with
"Unknown Show" default, heading fallback when the name is still the
sentinel, poster via two selectors, season count from JSON-LD. -/
def get_show_info (doc : ShowDoc) : ShowInfo :=
  let name0 := "Unknown Show"
  let name1 := match doc.jsonLd with
    | some j => j.name.getD name0
    | none => name0
  let number_of_seasons := match doc.jsonLd with
    | some j => j.numberOfSeasons
    | none => none
  let name2 :=
    if name1 = "Unknown Show" then
      match doc.heroTitle with
      | some t => t
      | none =>
        match doc.firstH1 with
        | some t => t
        | none => name1
    else name1
  let posterElem := match doc.posterSrcset with
    | some e => some e
    | none => doc.posterHero
  let poster_url := match posterElem with
    | some e => e.src
    | none => none
  { name := name2, poster_url := poster_url, number_of_seasons := number_of_seasons }

/-! ## Season Enumerator (`get_seasons`) -/

/-- The `partOfSeries` sub-dict of the episodes listing page's JSON-LD. -/
structure SeriesData where
  numberOfSeasons : Option Int
deriving DecidableEq

/-- Fields of the episodes listing page's JSON-LD read by `get_seasons`. -/
structure ListingJsonLd where
  partOfSeries : Option SeriesData
  numberOfSeasons : Option Int
deriving DecidableEq

/-- The episodes listing page: its JSON-LD and the `href` attributes of
the links matched by `a[href*="episodes?season="], a[href*="episodes/?season="]`. -/
structure EpisodesListingDoc where
  jsonLd : Option ListingJsonLd
  seasonLinkHrefs : List String
deriving DecidableEq

/-- Python `list(range(1, n + 1))`. -/
def pyRange1 (n : Int) : List Int :=
  (List.range n.toNat).map (fun (k : Nat) => (k : Int) + 1)

/-- The season count `get_seasons` reads from the listing page's
JSON-LD: `partOfSeries.numberOfSeasons` first, else the direct
`numberOfSeasons` key (the source falls through to the second check
when `partOfSeries` exists but lacks the field). -/
def jsonSeasonCount (jld : ListingJsonLd) : Option Int :=
  match jld.partOfSeries with
  | some series =>
    match series.numberOfSeasons with
    | some n => some n
    | none => jld.numberOfSeasons
  | none => jld.numberOfSeasons

/-- Python `sorted(set(xs))`: distinct values in ascending order. `dedup`
keeps one representative per value and `mergeSort` orders them. -/
def pySortedSet (xs : List Int) : List Int :=
  xs.dedup.mergeSort (fun a b => a ≤ b)

/-- The `season=(\d+)` values harvested from the season links
(`int(match.group(1))` per link whose href matches). -/
def seasonLinkValues (hrefs : List String) : List Int :=
  hrefs.filterMap (fun href =>
    (reScan seasonMatch href.data).map (fun ds => (digitsToNat ds : Int)))

/-- Season-link scan tier of `get_seasons`: distinct `season=<N>`
values sorted ascending when any are found, else the `[1]` default. -/
def get_seasons_links_tier (doc : EpisodesListingDoc) : List Int :=
  if doc.seasonLinkHrefs.isEmpty then [1]
  else if (seasonLinkValues doc.seasonLinkHrefs).isEmpty then [1]
  else pySortedSet (seasonLinkValues doc.seasonLinkHrefs)

/-- The fallback tiers of `get_seasons` after the known-count check:
listing-page JSON-LD count, then season links, then `[1]`. -/
def get_seasons_from_listing (doc : EpisodesListingDoc) : List Int :=
  match doc.jsonLd with
  | some jld =>
    match jsonSeasonCount jld with
    | some n => pyRange1 n
    | none => get_seasons_links_tier doc
  | none => get_seasons_links_tier doc

/-- Model of `get_seasons`: a known positive season count wins outright; the
listing-page document (whose fetch is external) feeds the fallbacks. -/
def get_seasons (known_season_count : Option Int) (doc : EpisodesListingDoc) : List Int :=
  match known_season_count with
  | some k => if k > 0 then pyRange1 k else get_seasons_from_listing doc
  | none => get_seasons_from_listing doc

/-! ## Episode Extractor (`get_episode_ratings` and its CSS fallback) -/

/-- An episode record as built by the extractor (the dicts appended to
`episodes`). -/
structure Episode where
  episode_num : Int
  title : String
  rating : Option ℚ
deriving DecidableEq

/-- Result of Python `float(rating_val)` on the JSON-LD `ratingValue`:
either a numeric value or a raised `ValueError`/`TypeError`. -/
inductive RatingVal where
  | num (q : ℚ)
  | unparsable
deriving DecidableEq

/-- The `aggregateRating` sub-dict of a JSON-LD episode entry; `none`
on the `ratingValue` field also covers an explicit JSON `null`. -/
structure AggRating where
  ratingValue : Option RatingVal
deriving DecidableEq

/-- A JSON-LD episode entry as read by `get_episode_ratings`:
`episodeNumber` (a JSON number; `none` = key absent), `name`, and an
`aggregateRating` dict (`none` = key absent or falsy empty dict). -/
structure EpData where
  episodeNumber : Option Int
  name : Option String
  aggregateRating : Option AggRating
deriving DecidableEq

/-- The value of the JSON-LD `episode` key: a list of entries, or a
value of some other type (the source's `isinstance(..., list)` check). -/
inductive EpisodeValue where
  | list (eps : List EpData)
  | nonList
deriving DecidableEq

/-- Fields of the season page's JSON-LD read by `get_episode_ratings`
(`json_ld.get("episode", [])`). -/
structure SeasonJsonLd where
  episode : Option EpisodeValue
deriving DecidableEq

/-- Rating of one JSON-LD entry: `aggregateRating.ratingValue` through
`float`, with parse failures swallowed (`except ... : pass`). -/
def epRating (e : EpData) : Option ℚ :=
  match e.aggregateRating with
  | none => none
  | some agg =>
    match agg.ratingValue with
    | none => none
    | some (RatingVal.num q) => some q
    | some RatingVal.unparsable => none

/-- One loop iteration of the primary path; `n` is `len(episodes)` so
far. `episode_num` defaults to the 1-based position when the field is
absent or falsy (`0`); the title default interpolates the pre-coercion
value, as the source does. -/
def buildEpisode (n : Nat) (e : EpData) : Episode :=
  let raw : Int := e.episodeNumber.getD ((n : Int) + 1)
  { episode_num := if raw ≠ 0 then raw else (n : Int) + 1,
    title := e.name.getD ("Episode " ++ toString raw),
    rating := epRating e }

/-- The primary loop over the JSON-LD entry list (`len(episodes)`
grows by one per iteration). -/
def buildEpisodes : Nat → List EpData → List Episode
  | _, [] => []
  | n, e :: rest => buildEpisode n e :: buildEpisodes (n + 1) rest

/-- Episode records the structured-data (JSON-LD) path yields: one per
entry when `episode` is a list (an empty list yields none, matching the
`and episode_list` truthiness check). -/
def primaryEpisodes (jld : SeasonJsonLd) : List Episode :=
  match jld.episode with
  | some (EpisodeValue.list eps) => buildEpisodes 0 eps
  | _ => []

/-- The `div.ipc-title__text` element of a fallback container; the
source reads it twice, once stripped (title) and once raw (episode
number scan), so both texts are kept. -/
structure TitleDiv where
  textStripped : String
  textRaw : String
deriving DecidableEq

/-- One container matched by the fallback's episode-item selectors, at
the document-parse boundary: the stripped texts of the four title-link
selectors, the `div.ipc-title__text` element, and the stripped texts of
the four rating selectors. `none` = absent-or-falsy element. -/
structure FallbackItem where
  titleLink1 : Option String
  titleLink2 : Option String
  titleLink3 : Option String
  titleLink4 : Option String
  titleDiv : Option TitleDiv
  rating1 : Option String
  rating2 : Option String
  rating3 : Option String
  rating4 : Option String
deriving DecidableEq

/-- Title text taken from `div.ipc-title__text`: strip a leading
`S<n>.E<n> ∙ ` style prefix when the pattern matches, else keep the
whole text. -/
def titleFromDiv (t : String) : String :=
  match reScan epTitleMatch t.data with
  | some g => String.mk g
  | none => t

/-- Fallback title extraction for one container: the four-way `or` of
title links (an empty text is falsy and also falls through), then the
title div with prefix stripping, then the synthesized `Episode {idx}`. -/
def fallbackTitle (idx : Nat) (item : FallbackItem) : String :=
  let fromLink : Option String :=
    item.titleLink1 <|> item.titleLink2 <|> item.titleLink3 <|> item.titleLink4
  let afterDiv : Option String :=
    if fromLink = none ∨ fromLink = some "" then
      match item.titleDiv with
      | some d => some (titleFromDiv d.textStripped)
      | none => fromLink
    else fromLink
  match afterDiv with
  | some t => if t = "" then "Episode " ++ toString idx else t
  | none => "Episode " ++ toString idx

/-- Fallback rating extraction for one container: four-way `or` of
rating elements, first `(\d+\.?\d*)` substring of the text, `float` of
the match (a match always parses; no match leaves the rating absent). -/
def fallbackRating (item : FallbackItem) : Option ℚ :=
  match item.rating1 <|> item.rating2 <|> item.rating3 <|> item.rating4 with
  | none => none
  | some txt =>
    match reScan decimalMatch txt.data with
    | some m => some (parseDecimal m.1 m.2)
    | none => none

/-- Fallback episode number: the positional index, overridden by the
first `E(\d+)` found in the raw text of `div.ipc-title__text`. -/
def fallbackEpNum (idx : Nat) (item : FallbackItem) : Int :=
  match item.titleDiv with
  | some d =>
    match reScan eNumMatch d.textRaw.data with
    | some ds => (digitsToNat ds : Int)
    | none => (idx : Int)
  | none => (idx : Int)

/-- One loop iteration of `_get_episode_ratings_css_fallback` at
1-based position `idx`. -/
def fallbackEpisode (idx : Nat) (item : FallbackItem) : Episode :=
  { episode_num := fallbackEpNum idx item,
    title := fallbackTitle idx item,
    rating := fallbackRating item }

/-- The fallback loop over `enumerate(episode_items, 1)`. -/
def fallbackEpisodes : Nat → List FallbackItem → List Episode
  | _, [] => []
  | idx, it :: rest => fallbackEpisode idx it :: fallbackEpisodes (idx + 1) rest

/-- A season's episodes page: its JSON-LD and the containers matched by
each of the three fallback item selectors
(`article.episode-item-wrapper`, `div.list_item`,
`[data-testid="episodes-container"] > div`). -/
structure SeasonDoc where
  jsonLd : Option SeasonJsonLd
  items1 : List FallbackItem
  items2 : List FallbackItem
  items3 : List FallbackItem
deriving DecidableEq

/-- The fallback's container-selector cascade: the first selector that
matches any elements is used exclusively. -/
def selectedItems (d : SeasonDoc) : List FallbackItem :=
  if d.items1 ≠ [] then d.items1
  else if d.items2 ≠ [] then d.items2
  else d.items3

/-- Model of `_get_episode_ratings_css_fallback` (leading underscore dropped):
records built from the selected containers, in document order. -/
def get_episode_ratings_css_fallback (d : SeasonDoc) : List Episode :=
  fallbackEpisodes 1 (selectedItems d)

/-- The `sorted` key comparison: ascending `episode_num`. -/
def epLe (a b : Episode) : Bool := a.episode_num ≤ b.episode_num

/-- Model of `get_episode_ratings`, after the external fetch/parse: the JSON-LD
primary path, returned sorted by episode number when it yields any
records, else the CSS fallback on the same document. -/
def get_episode_ratings (d : SeasonDoc) : List Episode :=
  let episodes :=
    match d.jsonLd with
    | some jld => primaryEpisodes jld
    | none => []
  if episodes.isEmpty then get_episode_ratings_css_fallback d
  else episodes.mergeSort epLe

/-! ## Analytics Engine (`calculate_analytics`) -/

/-- One element of the `seasons_data` input (built in `scrape_show`). -/
structure SeasonData where
  season_num : Int
  episodes : List Episode
deriving DecidableEq

/-- One element of the flattened `all_episodes` list: a rated episode
tagged with its season. -/
structure RatedEp where
  season : Int
  episode : Int
  title : String
  rating : ℚ
deriving DecidableEq

/-- One entry of `season_averages`. -/
structure SeasonAvg where
  season_num : Int
  average : ℚ
  episode_count : Nat
deriving DecidableEq

/-- The dict returned by `calculate_analytics`. -/
structure Analytics where
  min_episode : Option RatedEp
  max_episode : Option RatedEp
  overall_average : Option ℚ
  season_averages : List SeasonAvg
  best_season : Option SeasonAvg
  worst_season : Option SeasonAvg
  total_episodes : Nat
deriving DecidableEq

/-- Python `min(xs, key=key)` (first element with minimal key wins ties;
`none` on the empty list, where the source guards the call). -/
def pyMinBy {α : Type} (key : α → ℚ) : List α → Option α
  | [] => none
  | x :: xs => some (xs.foldl (fun best y => if key y < key best then y else best) x)

/-- Python `max(xs, key=key)` (first element with maximal key wins ties). -/
def pyMaxBy {α : Type} (key : α → ℚ) : List α → Option α
  | [] => none
  | x :: xs => some (xs.foldl (fun best y => if key y > key best then y else best) x)

/-- Python `round(x, 2)` on the exact rational model: round to the
nearest multiple of `1/100`; `round` resolves ties upward, which on the
non-negative ratings at hand is round-half-away-from-zero. -/
def round2 (x : ℚ) : ℚ := ((round (100 * x) : ℤ) : ℚ) / 100

/-- The flattened `all_episodes` list: every rated episode of every
season in iteration order, tagged with its season number (episodes with
an absent rating are skipped). -/
def all_episodes_of (seasons_data : List SeasonData) : List RatedEp :=
  seasons_data.flatMap (fun s =>
    s.episodes.filterMap (fun e =>
      e.rating.map (fun r =>
        { season := s.season_num, episode := e.episode_num,
          title := e.title, rating := r })))

/-- The `season_ratings` list of one season: its present ratings in
episode order. -/
def season_ratings_of (s : SeasonData) : List ℚ :=
  s.episodes.filterMap (fun e => e.rating)

/-- The `season_averages` list: one entry per season with at least one
rated episode, in input order, with the unrounded mean and the rated
count. -/
def season_averages_of (seasons_data : List SeasonData) : List SeasonAvg :=
  seasons_data.filterMap (fun s =>
    let rs := season_ratings_of s
    if rs.isEmpty then none
    else some { season_num := s.season_num,
                average := rs.sum / (rs.length : ℚ),
                episode_count := rs.length })

/-- Model of `calculate_analytics`: the all-absent summary when no episode is
rated, else extremes by rating, the rounded overall mean, per-season
averages, and best/worst season by average. -/
def calculate_analytics (seasons_data : List SeasonData) : Analytics :=
  let all_episodes := all_episodes_of seasons_data
  let season_averages := season_averages_of seasons_data
  if all_episodes.isEmpty then
    { min_episode := none, max_episode := none, overall_average := none,
      season_averages := [], best_season := none, worst_season := none,
      total_episodes := 0 }
  else
    { min_episode := pyMinBy (fun x => x.rating) all_episodes,
      max_episode := pyMaxBy (fun x => x.rating) all_episodes,
      overall_average :=
        some (round2 ((all_episodes.map (fun x => x.rating)).sum / (all_episodes.length : ℚ))),
      season_averages := season_averages,
      best_season := pyMaxBy (fun x => x.average) season_averages,
      worst_season := pyMinBy (fun x => x.average) season_averages,
      total_episodes := all_episodes.length }

/-- Modelled from the spec: "all present ratings" of an input — every
non-absent episode rating, flattened in season order. Used to state the
overall-average claim against the code's `all_episodes` bookkeeping. -/
def presentRatings (seasons_data : List SeasonData) : List ℚ :=
  seasons_data.flatMap (fun s => s.episodes.filterMap (fun e => e.rating))

/-! ## Concrete documents and inputs used by witnesses and counterexamples -/

/-- A one-season input whose only episode has no rating. -/
def sdNoRating : List SeasonData :=
  [{ season_num := 1, episodes := [{ episode_num := 1, title := "Pilot", rating := none }] }]

/-- The spec's end-to-end scenario A: season 1 rated `[8.5, 9.1]`,
season 2 rated `[null, 7.0]`. -/
def sdScenarioA : List SeasonData :=
  [{ season_num := 1, episodes :=
      [{ episode_num := 1, title := "a", rating := some (85 / 10) },
       { episode_num := 2, title := "b", rating := some (91 / 10) }] },
   { season_num := 2, episodes :=
      [{ episode_num := 1, title := "c", rating := none },
       { episode_num := 2, title := "d", rating := some 7 }] }]

/-- A JSON-LD season payload with two episode entries out of order. -/
def jldPrimary : SeasonJsonLd :=
  { episode := some (EpisodeValue.list
      [{ episodeNumber := some 2, name := some "Second", aggregateRating := some { ratingValue := some (RatingVal.num (76 / 10)) } },
       { episodeNumber := some 1, name := some "First", aggregateRating := some { ratingValue := some RatingVal.unparsable } }]) }

/-- A fallback container whose rating element text carries no number. -/
def itemNoNumber : FallbackItem :=
  { titleLink1 := some "Pilot", titleLink2 := none, titleLink3 := none,
    titleLink4 := none, titleDiv := some { textStripped := "S1.E1 ∙ Pilot", textRaw := "S1.E1 ∙ Pilot" },
    rating1 := some "N/A", rating2 := none, rating3 := none, rating4 := none }

/-- A season page with the JSON-LD payload `jldPrimary` and one
fallback container (which the primary path must ignore). -/
def docPrimary : SeasonDoc :=
  { jsonLd := some jldPrimary, items1 := [itemNoNumber], items2 := [], items3 := [] }

/-- A season page with no JSON-LD, matched only by the second container
selector. -/
def docFallbackOnly : SeasonDoc :=
  { jsonLd := none, items1 := [], items2 := [itemNoNumber], items3 := [] }

/-- A listing page whose JSON-LD reports `numberOfSeasons = 0`. -/
def cexListingZeroCount : EpisodesListingDoc :=
  { jsonLd := some { partOfSeries := none, numberOfSeasons := some 0 },
    seasonLinkHrefs := [] }

/-- A listing page with no JSON-LD and a single `season=0` link. -/
def cexListingZeroLink : EpisodesListingDoc :=
  { jsonLd := none, seasonLinkHrefs := ["episodes?season=0"] }

/-- A listing page with no JSON-LD and two season links, out of order
and with a duplicate. -/
def listingWithLinks : EpisodesListingDoc :=
  { jsonLd := none,
    seasonLinkHrefs := ["episodes?season=2", "episodes?season=1", "episodes/?season=2"] }

/-- A show page whose JSON-LD `name` is the empty string. -/
def cexShowEmptyName : ShowDoc :=
  { jsonLd := some { name := some "", numberOfSeasons := none },
    heroTitle := none, firstH1 := none, posterSrcset := none, posterHero := none }

/-- A show page with an ordinary JSON-LD name. -/
def showDocNamed : ShowDoc :=
  { jsonLd := some { name := some "Breaking Bad", numberOfSeasons := some 5 },
    heroTitle := none, firstH1 := none, posterSrcset := none, posterHero := none }

/-! ## Lemmas about the leftmost regex scan -/

/-- If the anchored matcher fails at every start position, the search
fails. -/
theorem reScan_eq_none {α : Type} (p : List Char → Option α) :
    ∀ cs : List Char, (∀ j : Nat, p (cs.drop j) = none) → reScan p cs = none
  | [], _ => rfl
  | c :: rest, h => by
    have h0 := h 0
    simp only [List.drop_zero] at h0
    simp only [reScan, h0]
    exact reScan_eq_none p rest (fun j => by
      have := h (j + 1)
      simpa using this)

/-- The `re.search` semantics of `reScan`: if the anchored matcher fails at
every position before `i` and succeeds at `i`, the search returns the
match at `i`. -/
theorem reScan_eq_of_first {α : Type} (p : List Char → Option α) (hnil : p [] = none) :
    ∀ (cs : List Char) (i : Nat), (∀ j, j < i → p (cs.drop j) = none) →
      (p (cs.drop i)).isSome = true → reScan p cs = p (cs.drop i)
  | [], i, _, hs => by
    rw [List.drop_nil, hnil] at hs
    cases hs
  | c :: rest, 0, _, hs => by
    simp only [List.drop_zero] at hs ⊢
    cases hp : p (c :: rest) with
    | none => rw [hp] at hs; cases hs
    | some m => simp [reScan, hp]
  | c :: rest, i + 1, hfirst, hs => by
    have h0 : p (c :: rest) = none := by
      have := hfirst 0 (Nat.succ_pos i)
      simpa using this
    simp only [List.drop_succ_cons] at hs ⊢
    simp only [reScan, h0]
    exact reScan_eq_of_first p hnil rest i
      (fun j hj => by
        have := hfirst (j + 1) (by omega)
        simpa using this) hs

/-- C4. Identifier Resolver correctness: whenever the reference string
contains `tt` followed by a digit starting at position `i`, and no
`tt\d+` match starts at any earlier position, `get_imdb_id` returns
exactly that first substring (`tt` plus the maximal digit run); when no
position carries a match, it returns the fatal invalid-reference
error. -/
theorem imdb_id_resolver_correct (url : String) :
    (∀ (i : Nat) (d : Char) (tail : List Char),
        url.data.drop i = 't' :: 't' :: d :: tail →
        d.isDigit = true →
        (∀ j, j < i → ttMatch (url.data.drop j) = none) →
        get_imdb_id url =
          Except.ok (String.mk ('t' :: 't' :: d :: tail.takeWhile Char.isDigit))) ∧
    ((∀ j : Nat, ttMatch (url.data.drop j) = none) →
        get_imdb_id url = Except.error ("Could not extract IMDB ID from URL: " ++ url)) := by
  constructor
  · intro i d tail hdrop hd hfirst
    have hmatch : ttMatch (url.data.drop i) =
        some ('t' :: 't' :: d :: tail.takeWhile Char.isDigit) := by
      rw [hdrop]
      simp [ttMatch, hd]
    have hscan : reScan ttMatch url.data = ttMatch (url.data.drop i) :=
      reScan_eq_of_first ttMatch rfl url.data i hfirst (by rw [hmatch]; rfl)
    unfold get_imdb_id
    rw [hscan, hmatch]
  · intro hnone
    unfold get_imdb_id
    rw [reScan_eq_none ttMatch url.data hnone]

/-- C4 witness: the spec's scenario C input yields `tt0903747`, and an
input with no identifier pattern yields the fatal error. -/
theorem imdb_id_resolver_correct_witness :
    get_imdb_id "https://example.com/title/tt0903747/episodes" = Except.ok "tt0903747" ∧
    get_imdb_id "nope" = Except.error "Could not extract IMDB ID from URL: nope" := by
  constructor
  · have h := (imdb_id_resolver_correct "https://example.com/title/tt0903747/episodes").1
      26 '0' ("903747/episodes".data) (by decide) (by decide)
      (by decide)
    have hs : String.mk ('t' :: 't' :: '0' ::
        List.takeWhile Char.isDigit "903747/episodes".data) = "tt0903747" := by decide
    exact h.trans (congrArg Except.ok hs)
  · refine ((imdb_id_resolver_correct "nope").2 ?_)
    intro j
    rcases Nat.lt_or_ge j 5 with hj | hj
    · revert hj
      revert j
      decide
    · have hlen : ("nope".data).length = 4 := by decide
      rw [List.drop_eq_nil_of_le (by omega)]
      rfl

/-- C5. The Rating Colorizer is a total pure function that refines the
specification's seven-bucket lookup table with half-open boundaries:
an absent rating maps to the fixed neutral color, every present rating
to exactly the bucket of the table, and in particular `4.0` falls in
the `[4,5)` bucket rather than the `<4` one. -/
theorem rating_colorizer_refines_table :
    (∀ r : Option ℚ, get_rating_color r = colorBucketTable r) ∧
    get_rating_color (some 4) = "#f85149" ∧
    get_rating_color none = "#3d3d3d" := by
  refine ⟨fun r => ?_, by norm_num [get_rating_color], rfl⟩
  match r with
  | none => rfl
  | some q =>
    simp only [get_rating_color, colorBucketTable]
    rcases lt_or_le q 4 with h4 | h4
    · simp [h4]
    rcases lt_or_le q 5 with h5 | h5
    · simp [h4, h5, not_lt.mpr h4]
    rcases lt_or_le q 6 with h6 | h6
    · simp [h4, h5, h6, not_lt.mpr h4, not_lt.mpr h5]
    rcases lt_or_le q 7 with h7 | h7
    · simp [h4, h5, h6, h7, not_lt.mpr h4, not_lt.mpr h5, not_lt.mpr h6]
    rcases lt_or_le q 8 with h8 | h8
    · simp [h4, h5, h6, h7, h8, not_lt.mpr h4, not_lt.mpr h5, not_lt.mpr h6,
        not_lt.mpr h7]
    rcases lt_or_le q 9 with h9 | h9
    · simp [h4, h5, h6, h7, h8, h9, not_lt.mpr h4, not_lt.mpr h5, not_lt.mpr h6,
        not_lt.mpr h7, not_lt.mpr h8]
    · simp [not_lt.mpr h4, not_lt.mpr h5, not_lt.mpr h6, not_lt.mpr h7,
        not_lt.mpr h8, not_lt.mpr h9]

/-- C2. All-or-nothing no-data invariant: whenever the computed summary
has `total_episodes = 0`, every optional field is absent and
`season_averages` is empty. -/
theorem analytics_no_data_invariant (sd : List SeasonData)
    (h : (calculate_analytics sd).total_episodes = 0) :
    (calculate_analytics sd).min_episode = none ∧
    (calculate_analytics sd).max_episode = none ∧
    (calculate_analytics sd).overall_average = none ∧
    (calculate_analytics sd).season_averages = [] ∧
    (calculate_analytics sd).best_season = none ∧
    (calculate_analytics sd).worst_season = none := by
  by_cases he : (all_episodes_of sd).isEmpty
  · simp [calculate_analytics, he]
  · exfalso
    unfold calculate_analytics at h
    simp only [he, Bool.false_eq_true, if_false] at h
    exact he (by
      rw [List.isEmpty_iff]
      exact List.length_eq_zero.mp h)

/-- C2 witness: an input whose only episode carries no rating has
`total_episodes = 0` and the all-absent summary. -/
theorem analytics_no_data_invariant_witness :
    (calculate_analytics sdNoRating).total_episodes = 0 ∧
    ((calculate_analytics sdNoRating).min_episode = none ∧
     (calculate_analytics sdNoRating).max_episode = none ∧
     (calculate_analytics sdNoRating).overall_average = none ∧
     (calculate_analytics sdNoRating).season_averages = [] ∧
     (calculate_analytics sdNoRating).best_season = none ∧
     (calculate_analytics sdNoRating).worst_season = none) :=
  ⟨by decide, analytics_no_data_invariant sdNoRating (by decide)⟩

/-! ## Lemmas about the Episode Extractor -/

/-- When the JSON-LD payload yields records, `get_episode_ratings`
returns exactly those records sorted — shared by the mutual-exclusion
and ordering claims. -/
theorem get_episode_ratings_of_primary (d : SeasonDoc) (jld : SeasonJsonLd)
    (hj : d.jsonLd = some jld) (hne : primaryEpisodes jld ≠ []) :
    get_episode_ratings d = (primaryEpisodes jld).mergeSort epLe := by
  have hni : (primaryEpisodes jld).isEmpty = false := by
    cases h : primaryEpisodes jld with
    | nil => exact absurd h hne
    | cons x xs => rfl
  unfold get_episode_ratings
  rw [hj]
  simp [hni]

/-- C1. Fallback tiers are mutually exclusive per season: when the
structured-data payload yields at least one episode record,
`get_episode_ratings` returns exactly the payload-derived records
(sorted), and the result is unchanged under arbitrary replacement of
the presentation-markup containers — the CSS fallback is never
consulted. -/
theorem primary_path_excludes_fallback (d : SeasonDoc) (jld : SeasonJsonLd)
    (a b c : List FallbackItem)
    (hj : d.jsonLd = some jld) (hne : primaryEpisodes jld ≠ []) :
    get_episode_ratings d = (primaryEpisodes jld).mergeSort epLe ∧
    get_episode_ratings { d with items1 := a, items2 := b, items3 := c } =
      get_episode_ratings d := by
  have h1 := get_episode_ratings_of_primary d jld hj hne
  have h2 := get_episode_ratings_of_primary
    { d with items1 := a, items2 := b, items3 := c } jld hj hne
  exact ⟨h1, h2.trans h1.symm⟩

/-- C1 witness: on a season page with a two-entry JSON-LD payload and a
non-empty fallback container list, the result is the sorted primary
records and is invariant under swapping out the containers. -/
theorem primary_path_excludes_fallback_witness :
    get_episode_ratings docPrimary = (primaryEpisodes jldPrimary).mergeSort epLe ∧
    get_episode_ratings { docPrimary with items1 := [], items2 := [itemNoNumber], items3 := [] } =
      get_episode_ratings docPrimary :=
  primary_path_excludes_fallback docPrimary jldPrimary [] [itemNoNumber] [] rfl (by decide)

/-- The `sorted` key comparison is transitive. -/
theorem epLe_trans (a b c : Episode) : epLe a b → epLe b c → epLe a c := by
  simp only [epLe, decide_eq_true_eq]
  omega

/-- The `sorted` key comparison is total. -/
theorem epLe_total (a b : Episode) : epLe a b || epLe b a := by
  simp only [epLe, Bool.or_eq_true, decide_eq_true_eq]
  omega

/-- The fallback loop produces one record per container. -/
theorem fallbackEpisodes_length (items : List FallbackItem) :
    ∀ k, (fallbackEpisodes k items).length = items.length := by
  induction items with
  | nil => intro k; rfl
  | cons it rest ih =>
    intro k
    simp [fallbackEpisodes, ih (k + 1)]

/-- The record at position `i` of the fallback loop started at index
`k` is built from the container at position `i`, with loop index
`k + i`: document order is preserved. -/
theorem fallbackEpisodes_getElem (items : List FallbackItem) :
    ∀ (k i : Nat) (h : i < items.length),
      (fallbackEpisodes k items)[i]? = some (fallbackEpisode (k + i) (items.get ⟨i, h⟩)) := by
  induction items with
  | nil =>
    intro k i h
    exact absurd h (by simp)
  | cons it rest ih =>
    intro k i h
    cases i with
    | zero => simp [fallbackEpisodes]
    | succ i =>
      have h2 : i < rest.length := by simpa using h
      have hrec := ih (k + 1) i h2
      simp only [fallbackEpisodes, List.getElem?_cons_succ, List.get_cons_succ]
      rw [hrec]
      have harith : k + 1 + i = k + (i + 1) := by omega
      rw [harith]

/-- C6. Output ordering: whenever the structured-data path yields any
records, the returned list is sorted ascending by episode number
(whatever the payload order was); the presentation-markup fallback
returns one record per matched container in document order — the
record at position `i` is built from the container at position `i`
with 1-based positional index `i + 1`, with no re-sorting. -/
theorem episode_extractor_output_ordering :
    (∀ (d : SeasonDoc) (jld : SeasonJsonLd), d.jsonLd = some jld →
        primaryEpisodes jld ≠ [] →
        (get_episode_ratings d).Pairwise (fun a b => a.episode_num ≤ b.episode_num)) ∧
    (∀ d : SeasonDoc,
        (get_episode_ratings_css_fallback d).length = (selectedItems d).length ∧
        ∀ (i : Nat) (h : i < (selectedItems d).length),
          (get_episode_ratings_css_fallback d)[i]? =
            some (fallbackEpisode (i + 1) ((selectedItems d).get ⟨i, h⟩))) := by
  constructor
  · intro d jld hj hne
    rw [get_episode_ratings_of_primary d jld hj hne]
    have hs := @List.sorted_mergeSort _ epLe epLe_trans epLe_total (primaryEpisodes jld)
    exact hs.imp (fun h => by simpa [epLe, decide_eq_true_eq] using h)
  · intro d
    refine ⟨fallbackEpisodes_length (selectedItems d) 1, fun i h => ?_⟩
    have := fallbackEpisodes_getElem (selectedItems d) 1 i h
    rw [get_episode_ratings_css_fallback, this]
    congr 2
    omega

/-- C6 witness: the primary path sorts the out-of-order payload of
`docPrimary`; the fallback on `docFallbackOnly` has one record, built
from its single container at position 0 with index 1. -/
theorem episode_extractor_output_ordering_witness :
    ((get_episode_ratings docPrimary).Pairwise (fun a b => a.episode_num ≤ b.episode_num)) ∧
    (get_episode_ratings_css_fallback docFallbackOnly).length =
      (selectedItems docFallbackOnly).length ∧
    (get_episode_ratings_css_fallback docFallbackOnly)[0]? =
      some (fallbackEpisode 1 ((selectedItems docFallbackOnly).get
        ⟨0, by decide⟩)) :=
  ⟨episode_extractor_output_ordering.1 docPrimary jldPrimary rfl (by decide),
   (episode_extractor_output_ordering.2 docFallbackOnly).1,
   (episode_extractor_output_ordering.2 docFallbackOnly).2 0 (by decide)⟩

/-- C7. Rating parse failures are swallowed: on the structured-data
path, an episode entry whose `ratingValue` is absent, null, or fails
`float` coercion produces a record with an absent rating (and the
record is still produced — extraction does not raise); on the markup
fallback path, a rating element whose text contains no decimal number
likewise yields an absent rating on the record. -/
theorem rating_parse_failures_swallowed :
    (∀ (n : Nat) (e : EpData) (agg : AggRating),
        e.aggregateRating = some agg →
        (agg.ratingValue = none ∨ agg.ratingValue = some RatingVal.unparsable) →
        (buildEpisode n e).rating = none) ∧
    (∀ (n : Nat) (e : EpData), e.aggregateRating = none →
        (buildEpisode n e).rating = none) ∧
    (∀ (idx : Nat) (item : FallbackItem) (txt : String),
        (item.rating1 <|> item.rating2 <|> item.rating3 <|> item.rating4) = some txt →
        reScan decimalMatch txt.data = none →
        (fallbackEpisode idx item).rating = none) := by
  refine ⟨fun n e agg h1 h2 => ?_, fun n e h1 => ?_, fun idx item txt h1 h2 => ?_⟩
  · rcases h2 with h2 | h2 <;> simp [buildEpisode, epRating, h1, h2]
  · simp [buildEpisode, epRating, h1]
  · simp [fallbackEpisode, fallbackRating, h1, h2]

/-- C7 witness: an unparsable JSON-LD `ratingValue` and a fallback
rating text with no digits both yield records with absent ratings. -/
theorem rating_parse_failures_swallowed_witness :
    (buildEpisode 1 ⟨some 1, some "First", some ⟨some RatingVal.unparsable⟩⟩).rating = none ∧
    (fallbackEpisode 1 itemNoNumber).rating = none :=
  ⟨rating_parse_failures_swallowed.1 1 _ _ rfl (Or.inr rfl),
   rating_parse_failures_swallowed.2.2 1 itemNoNumber "N/A" rfl (by decide)⟩

/-! ## Lemmas about the Analytics Engine -/

/-- The season-tagging of rated episodes does not change their
ratings: mapping the rating back out of one season's `all_episodes`
contribution recovers that season's present ratings. -/
theorem map_rating_filterMap (sn : Int) (eps : List Episode) :
    ((eps.filterMap (fun e => e.rating.map (fun r =>
        ({ season := sn, episode := e.episode_num, title := e.title, rating := r } : RatedEp)))).map
      (fun x => x.rating)) = eps.filterMap (fun e => e.rating) := by
  induction eps with
  | nil => rfl
  | cons e rest ih =>
    cases h : e.rating <;> simp [List.filterMap_cons, h, ih]

/-- The ratings of the flattened `all_episodes` list are exactly all
present ratings of the input, in order. -/
theorem all_episodes_map_rating (sd : List SeasonData) :
    (all_episodes_of sd).map (fun x => x.rating) = presentRatings sd := by
  induction sd with
  | nil => rfl
  | cons s rest ih =>
    have h1 : all_episodes_of (s :: rest) =
        s.episodes.filterMap (fun e => e.rating.map (fun r =>
          ({ season := s.season_num, episode := e.episode_num,
             title := e.title, rating := r } : RatedEp))) ++ all_episodes_of rest := by
      simp [all_episodes_of, List.flatMap_cons]
    have h2 : presentRatings (s :: rest) =
        s.episodes.filterMap (fun e => e.rating) ++ presentRatings rest := by
      simp [presentRatings, List.flatMap_cons]
    rw [h1, h2, List.map_append, map_rating_filterMap s.season_num s.episodes, ih]

/-- The `all_episodes` list counts exactly the present ratings. -/
theorem all_episodes_length (sd : List SeasonData) :
    (all_episodes_of sd).length = (presentRatings sd).length := by
  rw [← all_episodes_map_rating sd, List.length_map]

/-- The mean of a non-empty list of values in `[0, 10]` lies in `[0, 10]`. -/
theorem mean_nonneg_le_ten (l : List ℚ) (hne : l ≠ [])
    (hb : ∀ r ∈ l, 0 ≤ r ∧ r ≤ 10) :
    0 ≤ l.sum / (l.length : ℚ) ∧ l.sum / (l.length : ℚ) ≤ 10 := by
  have hl : 0 < (l.length : ℚ) := by
    have := List.length_pos.mpr hne
    exact_mod_cast this
  constructor
  · exact div_nonneg (List.sum_nonneg (fun x hx => (hb x hx).1)) hl.le
  · rw [div_le_iff₀ hl]
    have h10 := List.sum_le_card_nsmul l 10 (fun x hx => (hb x hx).2)
    simpa [nsmul_eq_mul, mul_comm] using h10

/-- Rounding to two decimals keeps a value of `[0, 10]` inside `[0, 10]`
(the tie rule rounds up, which cannot leave the interval since its
endpoints are exact hundredths). -/
theorem round2_bounds {x : ℚ} (h0 : 0 ≤ x) (h10 : x ≤ 10) :
    0 ≤ round2 x ∧ round2 x ≤ 10 := by
  have hr0 : (0 : ℤ) ≤ round (100 * x) := by
    have h := round_eq (100 * x)
    have h0f : round (0 : ℚ) ≤ round (100 * x) := by
      rw [round_eq, round_eq]
      exact Int.floor_le_floor (by linarith)
    simpa using h0f
  have hr1 : round (100 * x) ≤ (1000 : ℤ) := by
    have hle : round (100 * x) ≤ round ((1000 : ℚ)) := by
      rw [round_eq, round_eq]
      exact Int.floor_le_floor (by linarith)
    have h1000 : round ((1000 : ℚ)) = (1000 : ℤ) := by
      have hc : ((1000 : ℤ) : ℚ) = (1000 : ℚ) := by norm_num
      rw [← hc, round_intCast]
    rw [h1000] at hle
    exact hle
  unfold round2
  constructor
  · exact div_nonneg (by exact_mod_cast hr0) (by norm_num)
  · rw [div_le_iff₀ (by norm_num : (0 : ℚ) < 100)]
    have hc : ((round (100 * x) : ℤ) : ℚ) ≤ ((1000 : ℤ) : ℚ) := by exact_mod_cast hr1
    push_cast at hc
    linarith

/-- C3. For every input with at least one present rating, all of which
lie in `[0, 10]`, the computed `overall_average` is the arithmetic mean
of all present ratings rounded to 2 decimals (ties away from zero on
these non-negative values), and it lies within `[0, 10]`. -/
theorem overall_average_is_rounded_mean (sd : List SeasonData)
    (hne : presentRatings sd ≠ [])
    (hb : ∀ r ∈ presentRatings sd, 0 ≤ r ∧ r ≤ 10) :
    (calculate_analytics sd).overall_average =
      some (round2 ((presentRatings sd).sum / ((presentRatings sd).length : ℚ))) ∧
    ∀ v, (calculate_analytics sd).overall_average = some v → 0 ≤ v ∧ v ≤ 10 := by
  have hlen : (all_episodes_of sd).length = (presentRatings sd).length :=
    all_episodes_length sd
  have hne2 : all_episodes_of sd ≠ [] := by
    intro h
    apply hne
    have hl := congrArg List.length h
    rw [hlen] at hl
    exact List.length_eq_zero.mp hl
  have hnee : (all_episodes_of sd).isEmpty = false := by
    cases h : all_episodes_of sd with
    | nil => exact absurd h hne2
    | cons x xs => rfl
  have heq : (calculate_analytics sd).overall_average =
      some (round2 ((presentRatings sd).sum / ((presentRatings sd).length : ℚ))) := by
    unfold calculate_analytics
    simp only [hnee, Bool.false_eq_true, if_false]
    rw [all_episodes_map_rating, hlen]
  refine ⟨heq, fun v hv => ?_⟩
  rw [heq] at hv
  have hveq : v = round2 ((presentRatings sd).sum / ((presentRatings sd).length : ℚ)) :=
    (Option.some.injEq _ _).mp hv.symm
  subst hveq
  have hm := mean_nonneg_le_ten (presentRatings sd) hne hb
  exact round2_bounds hm.1 hm.2

/-- C3 witness: the spec's scenario A — ratings 8.5, 9.1 and 7.0 —
yields `overall_average = 8.2`, inside `[0, 10]`. -/
theorem overall_average_is_rounded_mean_witness :
    presentRatings sdScenarioA ≠ [] ∧
    (calculate_analytics sdScenarioA).overall_average = some ((41 : ℚ) / 5) ∧
    (0 : ℚ) ≤ 41 / 5 ∧ (41 : ℚ) / 5 ≤ 10 := by
  have hlist : presentRatings sdScenarioA = [85 / 10, 91 / 10, 7] := by
    simp [presentRatings, sdScenarioA, List.flatMap_cons, List.filterMap_cons]
  have hne : presentRatings sdScenarioA ≠ [] := by
    rw [hlist]
    simp
  have hb : ∀ r ∈ presentRatings sdScenarioA, 0 ≤ r ∧ r ≤ 10 := by
    rw [hlist]
    intro r hr
    simp only [List.mem_cons, List.mem_singleton, List.not_mem_nil, or_false] at hr
    rcases hr with h | h | h <;> subst h <;> norm_num
  have h := overall_average_is_rounded_mean sdScenarioA hne hb
  refine ⟨hne, ?_, by norm_num, by norm_num⟩
  rw [h.1, hlist]
  norm_num [round2, round_eq]

/-- A season contributes no ratings exactly when none of its episodes
has a present rating. -/
theorem filterMap_rating_nil_iff (eps : List Episode) :
    eps.filterMap (fun e => e.rating) = [] ↔
      eps.any (fun e => e.rating.isSome) = false := by
  induction eps with
  | nil => simp
  | cons e rest ih =>
    cases h : e.rating <;> simp [List.filterMap_cons, List.any_cons, h, ih]

/-- The `all_episodes` list over a cons input splits into the head season's
contribution and the tail's. -/
theorem all_episodes_cons (s : SeasonData) (rest : List SeasonData) :
    all_episodes_of (s :: rest) =
      s.episodes.filterMap (fun e => e.rating.map (fun r =>
        ({ season := s.season_num, episode := e.episode_num,
           title := e.title, rating := r } : RatedEp))) ++ all_episodes_of rest := by
  simp [all_episodes_of, List.flatMap_cons]

/-- The `season_averages` list over a cons input: the head season contributes
one entry when it has a rated episode and none otherwise. -/
theorem season_averages_cons (s : SeasonData) (rest : List SeasonData) :
    season_averages_of (s :: rest) =
      (if (season_ratings_of s).isEmpty then season_averages_of rest
       else { season_num := s.season_num,
              average := (season_ratings_of s).sum / ((season_ratings_of s).length : ℚ),
              episode_count := (season_ratings_of s).length } :: season_averages_of rest) := by
  by_cases h : season_ratings_of s = [] <;>
    simp [season_averages_of, List.filterMap_cons, h, List.isEmpty_iff]

/-- One season's `all_episodes` contribution has as many entries as
that season has present ratings. -/
theorem all_episodes_inner_length (s : SeasonData) :
    (s.episodes.filterMap (fun e => e.rating.map (fun r =>
      ({ season := s.season_num, episode := e.episode_num,
         title := e.title, rating := r } : RatedEp)))).length =
      (season_ratings_of s).length := by
  have := congrArg List.length (map_rating_filterMap s.season_num s.episodes)
  simpa [season_ratings_of] using this

/-- The `episode_count` fields of `season_averages` sum to the length
of `all_episodes`. -/
theorem season_averages_counts (sd : List SeasonData) :
    ((season_averages_of sd).map (fun a => a.episode_count)).sum =
      (all_episodes_of sd).length := by
  induction sd with
  | nil => rfl
  | cons s rest ih =>
    rw [all_episodes_cons, List.length_append, season_averages_cons,
      all_episodes_inner_length]
    by_cases h : (season_ratings_of s).isEmpty
    · have h0 : (season_ratings_of s).length = 0 := by
        rw [List.isEmpty_iff] at h
        simp [h]
      simp [h, ih, h0]
    · simp [h, List.map_cons, List.sum_cons, ih]

/-- The `season_averages` list carries exactly one entry, in input order, per
season with at least one rated episode. -/
theorem season_averages_season_nums (sd : List SeasonData) :
    (season_averages_of sd).map (fun a => a.season_num) =
      (sd.filter (fun s => s.episodes.any (fun e => e.rating.isSome))).map
        (fun s => s.season_num) := by
  induction sd with
  | nil => rfl
  | cons s rest ih =>
    rw [season_averages_cons]
    by_cases h : (season_ratings_of s).isEmpty
    · have hany : s.episodes.any (fun e => e.rating.isSome) = false := by
        rw [← filterMap_rating_nil_iff]
        exact List.isEmpty_iff.mp h
      simp [h, List.filter_cons, hany, ih]
    · have hany : s.episodes.any (fun e => e.rating.isSome) = true := by
        cases ha : s.episodes.any (fun e => e.rating.isSome) with
        | false =>
          exfalso
          apply h
          rw [List.isEmpty_iff]
          exact (filterMap_rating_nil_iff s.episodes).mpr ha
        | true => rfl
      simp [h, List.filter_cons, hany, ih]

/-- When no episode at all is rated, both `season_averages` and the
rated-season filter are empty. -/
theorem season_averages_of_eq_nil (sd : List SeasonData)
    (h : all_episodes_of sd = []) :
    season_averages_of sd = [] ∧
    sd.filter (fun s => s.episodes.any (fun e => e.rating.isSome)) = [] := by
  have hpr : presentRatings sd = [] := by
    rw [← all_episodes_map_rating sd, h]
    rfl
  have hall : ∀ s ∈ sd, s.episodes.filterMap (fun e => e.rating) = [] := by
    rw [presentRatings, List.flatMap_eq_nil_iff] at hpr
    exact hpr
  constructor
  · rw [season_averages_of, List.filterMap_eq_nil_iff]
    intro s hs
    have : (season_ratings_of s).isEmpty = true := by
      rw [List.isEmpty_iff]
      exact hall s hs
    simp [this]
  · rw [List.filter_eq_nil_iff]
    intro s hs
    rw [Bool.not_eq_true, ← filterMap_rating_nil_iff]
    exact hall s hs

/-- C10. Cross-field consistency of the summary: `total_episodes`
equals the sum of the `episode_count` fields of `season_averages`, and
`season_averages` contains exactly one entry (in order) per input
season having at least one rated episode. -/
theorem analytics_cross_field_consistency (sd : List SeasonData) :
    ((calculate_analytics sd).season_averages.map (fun a => a.episode_count)).sum =
      (calculate_analytics sd).total_episodes ∧
    (calculate_analytics sd).season_averages.map (fun a => a.season_num) =
      (sd.filter (fun s => s.episodes.any (fun e => e.rating.isSome))).map
        (fun s => s.season_num) := by
  by_cases h : (all_episodes_of sd).isEmpty
  · have hnil : all_episodes_of sd = [] := List.isEmpty_iff.mp h
    obtain ⟨hsa, hfil⟩ := season_averages_of_eq_nil sd hnil
    unfold calculate_analytics
    simp [h, hfil]
  · unfold calculate_analytics
    simp only [h, Bool.false_eq_true, if_false]
    exact ⟨season_averages_counts sd, season_averages_season_nums sd⟩

/-! ## Lemmas about the Season Enumerator -/

/-- Python `list(range(1, n + 1))` for positive `n` is a non-empty strictly
ascending list of positive integers. -/
theorem pyRange1_props (n : Int) (hn : 0 < n) :
    pyRange1 n ≠ [] ∧ (pyRange1 n).Pairwise (fun a b => a < b) ∧
    ∀ m ∈ pyRange1 n, 0 < m := by
  have hlen : (pyRange1 n).length = n.toNat := by simp [pyRange1]
  refine ⟨?_, ?_, ?_⟩
  · intro h
    rw [h] at hlen
    simp at hlen
    omega
  · rw [pyRange1, List.pairwise_map]
    refine (List.pairwise_lt_range n.toNat).imp ?_
    intro a b hab
    have : (a : Int) < (b : Int) := by exact_mod_cast hab
    omega
  · intro m hm
    simp only [pyRange1, List.mem_map, List.mem_range] at hm
    obtain ⟨k, hk, rfl⟩ := hm
    have : (0 : Int) ≤ (k : Int) := Int.natCast_nonneg k
    omega

/-- Python `sorted(set(xs))` of a non-empty list is a non-empty strictly
ascending list of members of `xs`. -/
theorem pySortedSet_props (xs : List Int) (hne : xs ≠ []) :
    pySortedSet xs ≠ [] ∧ (pySortedSet xs).Pairwise (fun a b => a < b) ∧
    ∀ m ∈ pySortedSet xs, m ∈ xs := by
  have hperm : List.Perm (xs.dedup.mergeSort (fun a b => a ≤ b)) xs.dedup :=
    List.mergeSort_perm _ _
  refine ⟨?_, ?_, ?_⟩
  · intro h
    have hlen := hperm.length_eq
    rw [pySortedSet] at h
    rw [h] at hlen
    simp only [List.length_nil] at hlen
    exact hne ((List.dedup_eq_nil _).mp (List.length_eq_zero.mp hlen.symm))
  · have hpw : (pySortedSet xs).Pairwise (fun a b : Int => a ≤ b) := by
      have ht : ∀ a b c : Int, (decide (a ≤ b)) → (decide (b ≤ c)) → (decide (a ≤ c)) := by
        intro a b c hab hbc
        simp only [decide_eq_true_eq] at *
        omega
      have hto : ∀ a b : Int, (decide (a ≤ b)) || (decide (b ≤ a)) := by
        intro a b
        simp only [Bool.or_eq_true, decide_eq_true_eq]
        omega
      have hs := @List.sorted_mergeSort Int (fun a b => decide (a ≤ b)) ht hto xs.dedup
      exact hs.imp (fun h => by simpa using h)
    have hnd : (pySortedSet xs).Nodup :=
      hperm.nodup_iff.mpr (List.nodup_dedup xs)
    exact List.Sorted.lt_of_le hpw hnd
  · intro m hm
    rw [pySortedSet] at hm
    exact List.mem_dedup.mp (hperm.mem_iff.mp hm)

/-- The link-scan tier returns a non-empty strictly ascending list,
positive whenever every harvested `season=<N>` value is positive. -/
theorem links_tier_props (doc : EpisodesListingDoc)
    (hlinks : ∀ href ∈ doc.seasonLinkHrefs, ∀ ds,
        reScan seasonMatch href.data = some ds → 0 < (digitsToNat ds : Int)) :
    get_seasons_links_tier doc ≠ [] ∧
    (get_seasons_links_tier doc).Pairwise (fun a b => a < b) ∧
    ∀ m ∈ get_seasons_links_tier doc, 0 < m := by
  unfold get_seasons_links_tier
  by_cases h1 : doc.seasonLinkHrefs.isEmpty
  · simp [h1]
  · simp only [h1, Bool.false_eq_true, if_false]
    by_cases h2 : (seasonLinkValues doc.seasonLinkHrefs).isEmpty
    · simp [h2]
    · simp only [h2, Bool.false_eq_true, if_false]
      have hne : seasonLinkValues doc.seasonLinkHrefs ≠ [] := by
        intro h
        rw [h] at h2
        exact h2 rfl
      obtain ⟨p1, p2, p3⟩ := pySortedSet_props _ hne
      refine ⟨p1, p2, fun m hm => ?_⟩
      have hmem := p3 m hm
      rw [seasonLinkValues, List.mem_filterMap] at hmem
      obtain ⟨href, hhr, hmap⟩ := hmem
      cases hscan : reScan seasonMatch href.data with
      | none => rw [hscan] at hmap; cases hmap
      | some ds =>
        rw [hscan] at hmap
        simp at hmap
        subst hmap
        exact hlinks href hhr ds hscan

/-- The listing-page fallback tiers return a non-empty strictly
ascending positive list under positivity of the recoverable values. -/
theorem get_seasons_from_listing_props (doc : EpisodesListingDoc)
    (hjson : ∀ jld n, doc.jsonLd = some jld → jsonSeasonCount jld = some n → 0 < n)
    (hlinks : ∀ href ∈ doc.seasonLinkHrefs, ∀ ds,
        reScan seasonMatch href.data = some ds → 0 < (digitsToNat ds : Int)) :
    get_seasons_from_listing doc ≠ [] ∧
    (get_seasons_from_listing doc).Pairwise (fun a b => a < b) ∧
    ∀ m ∈ get_seasons_from_listing doc, 0 < m := by
  cases hj : doc.jsonLd with
  | none =>
    have he : get_seasons_from_listing doc = get_seasons_links_tier doc := by
      simp only [get_seasons_from_listing, hj]
    rw [he]
    exact links_tier_props doc hlinks
  | some jld =>
    cases hc : jsonSeasonCount jld with
    | none =>
      have he : get_seasons_from_listing doc = get_seasons_links_tier doc := by
        simp only [get_seasons_from_listing, hj, hc]
      rw [he]
      exact links_tier_props doc hlinks
    | some n =>
      have he : get_seasons_from_listing doc = pyRange1 n := by
        simp only [get_seasons_from_listing, hj, hc]
      rw [he]
      exact pyRange1_props n (hjson jld n hj hc)

/-- C8 counterexample. The SeasonList invariant fails as stated on two
documents: a listing page whose JSON-LD reports `numberOfSeasons = 0`
makes `get_seasons` return the empty list (violating non-emptiness),
and a listing page whose only season link carries `season=0` makes it
return `[0]` (violating positivity). -/
theorem season_list_invariant_counterexample :
    get_seasons none cexListingZeroCount = [] ∧
    get_seasons none cexListingZeroLink = [0] ∧
    ¬ ∀ n ∈ get_seasons none cexListingZeroLink, 0 < n := by
  have h2 : get_seasons none cexListingZeroLink = [0] := by
    have hscan : seasonLinkValues ["episodes?season=0"] = [0] := by decide
    have hdedup : ([(0 : Int)]).dedup = [0] := by decide
    simp [get_seasons, get_seasons_from_listing, get_seasons_links_tier,
      cexListingZeroLink, hscan, pySortedSet, hdedup]
  refine ⟨rfl, h2, ?_⟩
  intro hall
  have := hall 0 (by rw [h2]; exact List.mem_singleton_self 0)
  omega

/-- C8 (amended). For every known season count and listing document
such that every JSON-LD `numberOfSeasons` value `get_seasons` would
consult is positive and every `season=<N>` link value is positive,
`get_seasons` returns a non-empty, strictly ascending (hence distinct)
list of positive integers, and it falls back to `[1]` when nothing is
recoverable. -/
theorem season_list_invariant_amended (known : Option Int) (doc : EpisodesListingDoc)
    (hjson : ∀ jld n, doc.jsonLd = some jld → jsonSeasonCount jld = some n → 0 < n)
    (hlinks : ∀ href ∈ doc.seasonLinkHrefs, ∀ ds,
        reScan seasonMatch href.data = some ds → 0 < (digitsToNat ds : Int)) :
    get_seasons known doc ≠ [] ∧
    (get_seasons known doc).Pairwise (fun a b => a < b) ∧
    (∀ n ∈ get_seasons known doc, 0 < n) ∧
    (known = none → doc.jsonLd = none →
      (∀ href ∈ doc.seasonLinkHrefs, reScan seasonMatch href.data = none) →
      get_seasons known doc = [1]) := by
  have hmain : get_seasons known doc ≠ [] ∧
      (get_seasons known doc).Pairwise (fun a b => a < b) ∧
      ∀ n ∈ get_seasons known doc, 0 < n := by
    cases hk : known with
    | none =>
      have he : get_seasons none doc = get_seasons_from_listing doc := rfl
      rw [he]
      exact get_seasons_from_listing_props doc hjson hlinks
    | some k =>
      by_cases hkpos : k > 0
      · have he : get_seasons (some k) doc = pyRange1 k := by
          simp [get_seasons, hkpos]
        rw [he]
        exact pyRange1_props k hkpos
      · have he : get_seasons (some k) doc = get_seasons_from_listing doc := by
          simp [get_seasons, hkpos]
        rw [he]
        exact get_seasons_from_listing_props doc hjson hlinks
  refine ⟨hmain.1, hmain.2.1, hmain.2.2, ?_⟩
  intro hknone hjnone hnoscan
  subst hknone
  have hvals : seasonLinkValues doc.seasonLinkHrefs = [] := by
    rw [seasonLinkValues, List.filterMap_eq_nil_iff]
    intro href hhr
    rw [hnoscan href hhr]
    rfl
  have he : get_seasons none doc = get_seasons_links_tier doc := by
    simp [get_seasons, get_seasons_from_listing, hjnone]
  rw [he]
  unfold get_seasons_links_tier
  by_cases h1 : doc.seasonLinkHrefs.isEmpty
  · simp [h1]
  · simp [h1, hvals]

/-- C8 witness: with a known count of 3 seasons and an empty listing
document, the result is non-empty, strictly ascending and positive;
with no count and no recoverable data, the result is `[1]`. -/
theorem season_list_invariant_amended_witness :
    get_seasons (some 3) { jsonLd := none, seasonLinkHrefs := [] } ≠ [] ∧
    (get_seasons (some 3) { jsonLd := none, seasonLinkHrefs := [] }).Pairwise
      (fun a b => a < b) ∧
    get_seasons none { jsonLd := none, seasonLinkHrefs := [] } = [1] := by
  have h1 := season_list_invariant_amended (some 3)
    { jsonLd := none, seasonLinkHrefs := [] }
    (fun jld n hj => by cases hj) (fun href hhr => by cases hhr)
  have h2 := season_list_invariant_amended none
    { jsonLd := none, seasonLinkHrefs := [] }
    (fun jld n hj => by cases hj) (fun href hhr => by cases hhr)
  exact ⟨h1.1, h1.2.1, h2.2.2.2 rfl rfl (fun href hhr => by cases hhr)⟩

/-- Where the recovered show name can come from: the sentinel, the
JSON-LD `name`, the hero title, or the first heading. -/
theorem show_name_source_cases (doc : ShowDoc) :
    (get_show_info doc).name = "Unknown Show" ∨
    (∃ j, doc.jsonLd = some j ∧ j.name = some (get_show_info doc).name) ∨
    doc.heroTitle = some (get_show_info doc).name ∨
    doc.firstH1 = some (get_show_info doc).name := by
  cases hjl : doc.jsonLd with
  | none =>
    cases hht : doc.heroTitle with
    | some t =>
      have he : (get_show_info doc).name = t := by simp [get_show_info, hjl, hht]
      right; right; left
      rw [he]
    | none =>
      cases hh1 : doc.firstH1 with
      | some t =>
        have he : (get_show_info doc).name = t := by simp [get_show_info, hjl, hht, hh1]
        right; right; right
        rw [he]
      | none =>
        left
        simp [get_show_info, hjl, hht, hh1]
  | some j =>
    cases hjn : j.name with
    | none =>
      cases hht : doc.heroTitle with
      | some t =>
        have he : (get_show_info doc).name = t := by simp [get_show_info, hjl, hjn, hht]
        right; right; left
        rw [he]
      | none =>
        cases hh1 : doc.firstH1 with
        | some t =>
          have he : (get_show_info doc).name = t := by
            simp [get_show_info, hjl, hjn, hht, hh1]
          right; right; right
          rw [he]
        | none =>
          left
          simp [get_show_info, hjl, hjn, hht, hh1]
    | some nm =>
      by_cases hnm : nm = "Unknown Show"
      · subst hnm
        cases hht : doc.heroTitle with
        | some t =>
          have he : (get_show_info doc).name = t := by simp [get_show_info, hjl, hjn, hht]
          right; right; left
          rw [he]
        | none =>
          cases hh1 : doc.firstH1 with
          | some t =>
            have he : (get_show_info doc).name = t := by
              simp [get_show_info, hjl, hjn, hht, hh1]
            right; right; right
            rw [he]
          | none =>
            left
            simp [get_show_info, hjl, hjn, hht, hh1]
      · have he : (get_show_info doc).name = nm := by simp [get_show_info, hjl, hjn, hnm]
        right; left
        exact ⟨j, rfl, by rw [he, hjn]⟩

/-- C9 counterexample. On a show page whose JSON-LD carries an empty
`name`, `get_show_info` returns an empty name string (the empty string
is not the sentinel, so the heading fallback is skipped), violating the
non-emptiness guarantee as claimed. -/
theorem show_name_counterexample : (get_show_info cexShowEmptyName).name = "" := rfl

/-- C9 (amended). `get_show_info` is total (never raises) and, provided
every name source present in the document — the JSON-LD `name`, the
hero title text and the first heading text — is non-empty, the returned
name is non-empty: either a recovered name or the "Unknown Show"
sentinel. -/
theorem show_metadata_name_amended (doc : ShowDoc)
    (hj : ∀ j, doc.jsonLd = some j → j.name ≠ some "")
    (hh : doc.heroTitle ≠ some "") (h1 : doc.firstH1 ≠ some "") :
    (get_show_info doc).name ≠ "" ∧
    ((get_show_info doc).name = "Unknown Show" ∨
     (∃ j, doc.jsonLd = some j ∧ j.name = some (get_show_info doc).name) ∨
     doc.heroTitle = some (get_show_info doc).name ∨
     doc.firstH1 = some (get_show_info doc).name) := by
  have hc := show_name_source_cases doc
  refine ⟨?_, hc⟩
  rcases hc with h | ⟨j, hjl, hjn⟩ | h | h
  · rw [h]
    decide
  · intro he
    exact hj j hjl (by rw [hjn, he])
  · intro he
    rw [he] at h
    exact hh h
  · intro he
    rw [he] at h
    exact h1 h

/-- C9 witness: a page with JSON-LD name "Breaking Bad" yields a
non-empty name. -/
theorem show_metadata_name_amended_witness :
    (get_show_info showDocNamed).name ≠ "" ∧
    ((get_show_info showDocNamed).name = "Unknown Show" ∨
     (∃ j, showDocNamed.jsonLd = some j ∧
        j.name = some (get_show_info showDocNamed).name) ∨
     showDocNamed.heroTitle = some (get_show_info showDocNamed).name ∨
     showDocNamed.firstH1 = some (get_show_info showDocNamed).name) :=
  show_metadata_name_amended showDocNamed
    (fun j hj => by cases hj; decide) (by decide) (by decide)
